import Mathlib

/-!
Verification of the build_nextstrain repository.

Shallow embedding of three Python scripts:
  * `build_nextstrain.py` — the pipeline orchestrator: command construction
    for the nine analysis stages and the fail-fast execution loop
    (`run_command` / `main`).
  * `extract_sequences.py` — the sequence subset extractor.
  * `get_GenBank_genomes.py` — the per-accession fetcher.

External tools (augur, nextstrain, Bio.SeqIO, Bio.Entrez) are opaque:
commands are modelled as the strings the orchestrator builds, an executor
`exec : String → Int` stands for running a command and observing its exit
status, a parser `parse : String → List SeqRecord` stands for
`SeqIO.parse`, and a fetcher `fetch : String → Option SeqRecord` stands for
`Entrez.efetch` + `SeqIO.read` (`none` is a raised exception).
-/

/-- Substring relation on strings: the pattern's character list is a
contiguous infix of the subject's character list. -/
def strContains (s pat : String) : Prop := pat.data <:+: s.data

instance (s pat : String) : Decidable (strContains s pat) :=
  inferInstanceAs (Decidable (pat.data <:+: s.data))

/-- Command-line configuration of `build_nextstrain.py`, one field per
`parse_args` argument, with the same names.  Optional flags with no
default are `Option String` (argparse yields `None`). -/
structure Args where
  results : String
  configs : String
  threads : Nat
  sequences : String
  reference : String
  metadata : String
  lat_longs : String
  colors : String
  maintainers : Option String
  build_url : Option String
  include_where : Option String
  include_strains : Option String
  title : String
deriving DecidableEq

/-- The configuration produced by `parse_args` when only the three
required flags are given: every other field takes its declared default. -/
def defaultArgs (sequences reference metadata : String) : Args where
  results := "results"
  configs := "configs"
  threads := 8
  sequences := sequences
  reference := reference
  metadata := metadata
  lat_longs := "$\x7bconfigs\x7d/lat_longs.tsv"
  colors := "$\x7bconfigs\x7d/colors.tsv"
  maintainers := none
  build_url := none
  include_where := none
  include_strains := none
  title := "Nextstrain Analysis"

/-- Python truthiness of an optional string: `None` and `""` are falsy. -/
def pyTruthy : Option String → Bool
  | none => false
  | some s => !(s == "")

/-- Python f-string rendering of a possibly-`None` value: `None` prints as
the four characters `None`. -/
def pyStr : Option String → String
  | none => "None"
  | some s => s

/-- Stage 1 command (line 58 of `build_nextstrain.py`). -/
def indexCmd (a : Args) : String :=
  "augur index --sequences " ++ a.sequences ++ " --output " ++ a.results
    ++ "/sequence_index.tsv"

/-- The `--include` fragment of the filter command (line 62). -/
def includeStrainsOpt (a : Args) : String :=
  if pyTruthy a.include_strains then "--include " ++ a.include_strains.getD "" else ""

/-- The `--include-where` fragment of the filter command (line 63). -/
def includeWhereOpt (a : Args) : String :=
  if pyTruthy a.include_where then
    "--include-where \"" ++ a.include_where.getD "" ++ "\""
  else ""

/-- Stage 2 command (lines 64–69). -/
def filterCmd (a : Args) : String :=
  "augur filter --metadata " ++ a.metadata ++ " --sequences " ++ a.sequences
    ++ " --sequence-index " ++ a.results
    ++ "/sequence_index.tsv --group-by country year month --output " ++ a.results
    ++ "/filtered.fasta --output-metadata " ++ a.results
    ++ "/meta.tsv --output-strains " ++ a.results
    ++ "/strains.tsv --output-log " ++ a.results
    ++ "/output.log " ++ includeStrainsOpt a ++ " " ++ includeWhereOpt a
    ++ " --sequences-per-group 2"

/-- Stage 3 command (lines 73–74). -/
def alignCmd (a : Args) : String :=
  "augur align --sequences " ++ a.sequences ++ " --output " ++ a.results
    ++ "/aligned.fasta --nthreads " ++ toString a.threads
    ++ " --reference-sequence " ++ a.reference

/-- Stage 4 command (lines 78–79). -/
def treeCmd (a : Args) : String :=
  "augur tree --alignment " ++ a.results ++ "/aligned.fasta --output " ++ a.results
    ++ "/tree_raw.nwk --nthreads " ++ toString a.threads

/-- Stage 5 command (lines 83–87). -/
def refineCmd (a : Args) : String :=
  "augur refine --alignment " ++ a.results ++ "/aligned.fasta --tree " ++ a.results
    ++ "/tree_raw.nwk --metadata " ++ a.results
    ++ "/meta.tsv --output-tree " ++ a.results
    ++ "/tree.nwk --output-node-data " ++ a.results
    ++ "/branch_lengths.json --timetree --coalescent opt --date-inference joint"
    ++ " --stochastic-resolve --clock-std-dev 0.0002 --clock-rate 0.0008"
    ++ " --date-confidence"

/-- Stage 6 command (lines 91–92). -/
def traitsCmd (a : Args) : String :=
  "augur traits --tree " ++ a.results ++ "/tree.nwk --metadata " ++ a.results
    ++ "/meta.tsv --column country region host year --confidence"
    ++ " --output-node-data " ++ a.results ++ "/traits.json"

/-- Stage 7 command (lines 96–97). -/
def ancestralCmd (a : Args) : String :=
  "augur ancestral --tree " ++ a.results ++ "/tree.nwk --alignment " ++ a.results
    ++ "/aligned.fasta --output-node-data " ++ a.results ++ "/nt_muts.json"

/-- Stage 8 command (lines 101–105).  Note that `maintainers` and
`build_url` are interpolated with Python `str` semantics (`pyStr`), and
that `lat_longs` is inserted verbatim — no substitution of the
`$\x7bconfigs\x7d` placeholder happens anywhere in the script. -/
def exportCmd (a : Args) : String :=
  "augur export v2 --auspice-config " ++ a.configs
    ++ "/auspice_config.json --title \"" ++ a.title
    ++ "\" --maintainers \"" ++ pyStr a.maintainers
    ++ "\" --build-url \"" ++ pyStr a.build_url
    ++ "\" --node-data " ++ a.results
    ++ "/branch_lengths.json " ++ a.results
    ++ "/traits.json " ++ a.results
    ++ "/nt_muts.json --colors " ++ a.colors
    ++ " --lat-longs \"" ++ a.lat_longs
    ++ "\" --tree " ++ a.results
    ++ "/tree.nwk --output auspice/westnile.json --color-by-metadata country region host"

/-- Stage 9 command (line 109). -/
def viewCmd : String := "nextstrain view auspice/"

/-- The nine stage commands in the order `main` issues them. -/
def pipelineCommands (a : Args) : List String :=
  [indexCmd a, filterCmd a, alignCmd a, treeCmd a, refineCmd a,
   traitsCmd a, ancestralCmd a, exportCmd a, viewCmd]

/-- The message `run_command` prints on failure (line 47).  Python's
`(c h for c h in e.cmd)` joined by spaces: `e.cmd` is the command string, so
the join runs over its characters. -/
def cmdErrorMsg (c : String) : String :=
  "Error executing command: " ++ String.intercalate " " (c.data.map Char.toString)

/-- Observable outcome of one orchestrator run: which commands were handed
to the shell, in order; the error lines printed to stderr; the process
exit code. -/
structure RunResult where
  executed : List String
  stderrMsgs : List String
  exitCode : Nat
deriving DecidableEq

/-- The fail-fast loop of `main`: each command is run in turn via
`run_command`; on the first nonzero exit status the error message is
printed and the process exits with code 1 (`sys.exit(1)`), so no later
command is issued; if every command exits 0 the process ends with code 0. -/
def runPipeline (ex : String → Int) : List String → RunResult
  | [] => ⟨[], [], 0⟩
  | c :: rest =>
    if ex c = 0 then
      let r := runPipeline ex rest
      ⟨c :: r.executed, r.stderrMsgs, r.exitCode⟩
    else ⟨[c], [cmdErrorMsg c], 1⟩

/-- One full run of `build_nextstrain.py` under executor `ex`. -/
def pipelineRun (a : Args) (ex : String → Int) : RunResult :=
  runPipeline ex (pipelineCommands a)

/-- A sample configuration: required flags given, everything else default. -/
def a0 : Args := defaultArgs "seqs.fasta" "ref.gb" "meta.tsv"


/-! ## Execution lemmas for the orchestrator loop -/

/-- If every command in the list exits 0, the loop runs them all, prints
nothing, and the process exits 0. -/
theorem runPipeline_all_ok (ex : String → Int) :
    ∀ cmds : List String, (∀ c ∈ cmds, ex c = 0) → runPipeline ex cmds = ⟨cmds, [], 0⟩
  | [], _ => rfl
  | c :: rest, h => by
    have hc : ex c = 0 := h c (List.mem_cons_self c rest)
    have ih := runPipeline_all_ok ex rest (fun d hd => h d (List.mem_cons_of_mem c hd))
    simp [runPipeline, hc, ih]

/-- If the commands before `c` all exit 0 and `c` exits nonzero, the loop
runs exactly the prefix up to and including `c`, prints the error message
for `c`, and the process exits 1. -/
theorem runPipeline_first_fail (ex : String → Int) (c : String) (post : List String)
    (hc : ex c ≠ 0) :
    ∀ pre : List String, (∀ d ∈ pre, ex d = 0) →
      runPipeline ex (pre ++ c :: post) = ⟨pre ++ [c], [cmdErrorMsg c], 1⟩
  | [], _ => by simp [runPipeline, hc]
  | d :: pre, h => by
    have hd : ex d = 0 := h d (List.mem_cons_self d pre)
    have ih := runPipeline_first_fail ex c post hc pre
      (fun e he => h e (List.mem_cons_of_mem d he))
    simp [runPipeline, hd, ih]

/-- The process exit code is 0 exactly when every command in the list
exits 0. -/
theorem runPipeline_exitCode_eq_zero (ex : String → Int) :
    ∀ cmds : List String, (runPipeline ex cmds).exitCode = 0 ↔ ∀ c ∈ cmds, ex c = 0
  | [] => by simp [runPipeline]
  | c :: rest => by
    by_cases hc : ex c = 0
    · have ih := runPipeline_exitCode_eq_zero ex rest
      simp [runPipeline, hc, ih]
    · simp [runPipeline, hc]

/-- C1: if any of stages 1 through 8 fails (its command exits nonzero while
every earlier stage's command exited 0), the run aborts immediately: the
commands issued are exactly the preceding ones plus the failing one — no
later stage's command is invoked — and the process exits with code 1.
The process exits with code 0 exactly when all 9 stage commands succeed. -/
theorem pipeline_aborts_on_stage_failure (a : Args) (ex : String → Int) :
    (∀ pre c post, pipelineCommands a = pre ++ c :: post → post ≠ [] →
      (∀ d ∈ pre, ex d = 0) → ex c ≠ 0 →
      (pipelineRun a ex).executed = pre ++ [c] ∧ (pipelineRun a ex).exitCode = 1) ∧
    ((pipelineRun a ex).exitCode = 0 ↔ ∀ d ∈ pipelineCommands a, ex d = 0) := by
  constructor
  · intro pre c post hsplit _ hpre hc
    have h := runPipeline_first_fail ex c post hc pre hpre
    rw [pipelineRun, hsplit, h]
    exact ⟨rfl, rfl⟩
  · exact runPipeline_exitCode_eq_zero ex (pipelineCommands a)

/-- Executor that fails (exit status 1) exactly on the stage-3 align
command of the sample configuration. -/
def exFailAlign : String → Int := fun c => if c = alignCmd a0 then 1 else 0

/-- Witness for C1: with stage 3 failing under the sample configuration,
exactly stages 1–3 are invoked and the process exits 1; and the exit-code
characterisation holds at this input. -/
theorem pipeline_aborts_on_stage_failure_witness :
    (pipelineRun a0 exFailAlign).executed = [indexCmd a0, filterCmd a0, alignCmd a0] ∧
      (pipelineRun a0 exFailAlign).exitCode = 1 := by
  have h := (pipeline_aborts_on_stage_failure a0 exFailAlign).1
    [indexCmd a0, filterCmd a0] (alignCmd a0)
    [treeCmd a0, refineCmd a0, traitsCmd a0, ancestralCmd a0, exportCmd a0, viewCmd]
    rfl (by decide) (by decide) (by decide)
  exact ⟨h.1, h.2⟩

/-- C7: when stages 1–8 all succeed and the stage-9 viewer command fails,
every pipeline command — in particular all eight artifact-producing
stages — has already been invoked, so the failure does not prevent
pipeline completion; the failure is still reported: its error message is
printed and the process exits with the failure code 1. -/
theorem view_failure_after_pipeline_completion (a : Args) (ex : String → Int)
    (hpre : ∀ d ∈ [indexCmd a, filterCmd a, alignCmd a, treeCmd a, refineCmd a,
      traitsCmd a, ancestralCmd a, exportCmd a], ex d = 0)
    (hv : ex viewCmd ≠ 0) :
    (pipelineRun a ex).executed = pipelineCommands a ∧
      (pipelineRun a ex).stderrMsgs = [cmdErrorMsg viewCmd] ∧
      (pipelineRun a ex).exitCode = 1 := by
  have h := runPipeline_first_fail ex viewCmd [] hv
    [indexCmd a, filterCmd a, alignCmd a, treeCmd a, refineCmd a,
      traitsCmd a, ancestralCmd a, exportCmd a] hpre
  have hsplit : pipelineCommands a =
      [indexCmd a, filterCmd a, alignCmd a, treeCmd a, refineCmd a,
        traitsCmd a, ancestralCmd a, exportCmd a] ++ viewCmd :: [] := rfl
  rw [pipelineRun, hsplit, h]
  exact ⟨rfl, rfl, rfl⟩

/-- Executor that fails (exit status 2) exactly on the stage-9 viewer
command. -/
def exFailView : String → Int := fun c => if c = viewCmd then 2 else 0

/-- Witness for C7: under the sample configuration with only the viewer
failing, all nine commands run, the viewer's error message is printed and
the exit code is 1. -/
theorem view_failure_after_pipeline_completion_witness :
    (pipelineRun a0 exFailView).executed = pipelineCommands a0 ∧
      (pipelineRun a0 exFailView).stderrMsgs = [cmdErrorMsg viewCmd] ∧
      (pipelineRun a0 exFailView).exitCode = 1 :=
  view_failure_after_pipeline_completion a0 exFailView (by decide) (by decide)

/-- Executor failing with exit status 2 on the stage-1 index command of
the sample configuration. -/
def exCode2 : String → Int := fun c => if c = indexCmd a0 then 2 else 0

/-- Executor failing with exit status 3 on the stage-1 index command of
the sample configuration. -/
def exCode3 : String → Int := fun c => if c = indexCmd a0 then 3 else 0

set_option maxRecDepth 4000 in
/-- Counterexample to C8: two runs that differ only in the failing
command's exit status (2 versus 3) produce bit-identical observable
outcomes — same commands issued, same stderr lines, same process exit
code 1 — so the failure report cannot carry the underlying exit code (nor
is any stage name part of it). -/
theorem failure_report_identical_across_exit_codes :
    exCode2 (indexCmd a0) = 2 ∧ exCode3 (indexCmd a0) = 3 ∧
      pipelineRun a0 exCode2 = pipelineRun a0 exCode3 ∧
      (pipelineRun a0 exCode2).exitCode = 1 ∧
      (pipelineRun a0 exCode2).stderrMsgs = [cmdErrorMsg (indexCmd a0)] := by
  decide

/-- C8 amended: when an external tool invocation returns a nonzero exit
status, the failure report names the failing command (its characters
joined with spaces by the report formatter) and the process exits with the
fixed code 1; neither the underlying exit code nor the stage name appears
anywhere in the outcome — any executor that fails at the same command,
whatever its nonzero status, yields the identical outcome. -/
theorem failure_report_carries_command_only (a : Args) (ex : String → Int)
    (pre : List String) (c : String) (post : List String)
    (hsplit : pipelineCommands a = pre ++ c :: post)
    (hpre : ∀ d ∈ pre, ex d = 0) (hc : ex c ≠ 0) :
    (pipelineRun a ex).stderrMsgs = [cmdErrorMsg c] ∧
      (pipelineRun a ex).exitCode = 1 ∧
      (∀ ex2 : String → Int, (∀ d ∈ pre, ex2 d = 0) → ex2 c ≠ 0 →
        pipelineRun a ex2 = pipelineRun a ex) := by
  have h := runPipeline_first_fail ex c post hc pre hpre
  refine ⟨?_, ?_, ?_⟩
  · rw [pipelineRun, hsplit, h]
  · rw [pipelineRun, hsplit, h]
  · intro ex2 hpre2 hc2
    have h2 := runPipeline_first_fail ex2 c post hc2 pre hpre2
    rw [pipelineRun, hsplit, h2, pipelineRun, hsplit, h]

/-- Witness for the amended C8: with the index command failing under exit
status 2, the report is exactly the command's error line, the process
exits 1, and an executor failing there with status 3 instead yields the
identical outcome. -/
theorem failure_report_carries_command_only_witness :
    (pipelineRun a0 exCode2).stderrMsgs = [cmdErrorMsg (indexCmd a0)] ∧
      (pipelineRun a0 exCode2).exitCode = 1 ∧
      pipelineRun a0 exCode3 = pipelineRun a0 exCode2 := by
  have h := failure_report_carries_command_only a0 exCode2 [] (indexCmd a0)
    [filterCmd a0, alignCmd a0, treeCmd a0, refineCmd a0, traitsCmd a0,
      ancestralCmd a0, exportCmd a0, viewCmd]
    rfl (by decide) (by decide)
  exact ⟨h.1, h.2.1, h.2.2 exCode3 (by decide) (by decide)⟩

/-! ## Substring facts about the constructed commands -/

/-- An infix of a list is an infix of any right-extension of it. -/
theorem infix_extend_right {α : Type} {p l : List α} (r : List α) (h : p <:+: l) :
    p <:+: l ++ r := by
  obtain ⟨u, v, huv⟩ := h
  exact ⟨u, v ++ r, by rw [← huv]; simp [List.append_assoc]⟩

/-- An infix of a list is an infix of any left-extension of it. -/
theorem infix_extend_left {α : Type} (l : List α) {p r : List α} (h : p <:+: r) :
    p <:+: l ++ r := by
  obtain ⟨u, v, huv⟩ := h
  exact ⟨l ++ u, v, by rw [← huv]; simp [List.append_assoc]⟩

/-- An infix of `u ++ m ++ v` is an infix of the right-nested
`u ++ (m ++ (v ++ r))`. -/
theorem infix_middle {α : Type} (u m v r : List α) {p : List α}
    (h : p <:+: u ++ m ++ v) : p <:+: u ++ (m ++ (v ++ r)) := by
  have h2 := infix_extend_right r h
  simpa [List.append_assoc] using h2

/-- The sample configuration with `--configs cfg` and `--lat-longs` left
unset. -/
def aCfg : Args := { defaultArgs "seqs.fasta" "ref.gb" "meta.tsv" with configs := "cfg" }

set_option maxRecDepth 8000 in
/-- C2 evaluated on the code: with configs directory `cfg` and the
lat/long path left at its default, the stage-8 export command contains the
untouched placeholder text `$\x7bconfigs\x7d/lat_longs.tsv` and does not contain
the substituted path `cfg/lat_longs.tsv` — the script never substitutes
the placeholder token (any expansion of `$\x7bconfigs\x7d` is left to the shell,
which reads the environment variable `configs`, not the `--configs`
value). -/
theorem latlongs_placeholder_not_substituted :
    aCfg.configs = "cfg" ∧
      aCfg.lat_longs = "$\x7bconfigs\x7d/lat_longs.tsv" ∧
      strContains (exportCmd aCfg) "--lat-longs \"$\x7bconfigs\x7d/lat_longs.tsv\"" ∧
      ¬ strContains (exportCmd aCfg) "cfg/lat_longs.tsv" := by
  decide

/-- A concrete configuration whose raw-input path makes the counterexample
unmistakable. -/
def aRaw : Args := defaultArgs "raw.fasta" "ref.gb" "meta.tsv"

set_option maxRecDepth 8000 in
/-- Counterexample to C3: under a configuration whose raw sequence archive
is `raw.fasta`, stage 2 Filter declares `results/filtered.fasta` as its
output, yet the stage-3 Align command reads `raw.fasta` and never mentions
`results/filtered.fasta` — stage 3 does not consume the archive produced
by stage 2, so the stages do not form the claimed linear chain. -/
theorem align_ignores_filtered_output_cex :
    strContains (filterCmd aRaw) "--output results/filtered.fasta" ∧
      strContains (alignCmd aRaw) "--sequences raw.fasta" ∧
      ¬ strContains (alignCmd aRaw) "results/filtered.fasta" := by
  decide

/-- A concrete configuration for tracing the dependency chain. -/
def aChain : Args := defaultArgs "data/raw_sequences.fasta" "ref/reference.gb" "data/metadata.tsv"

set_option maxRecDepth 8000 in
/-- C3 amended: stage 2 consumes stage 1's sequence index, and stages 4–8
each consume declared outputs of earlier stages (stage 4 the alignment,
stage 5 the alignment, raw tree and filtered metadata, stage 6 the refined
tree and filtered metadata, stage 7 the refined tree and alignment, stage
8 the three annotation sets and the refined tree, stage 9 the auspice
directory) — but stage-3 Align consumes the raw sequence archive supplied
in the configuration, not the filtered archive produced by stage-2 Filter,
which no later stage reads; so the chain is linear except at stage 3. -/
theorem stage_input_chain_amended :
    strContains (filterCmd aChain) "--sequence-index results/sequence_index.tsv" ∧
      strContains (alignCmd aChain) "--sequences data/raw_sequences.fasta" ∧
      ¬ strContains (alignCmd aChain) "results/filtered.fasta" ∧
      ¬ strContains (treeCmd aChain) "results/filtered.fasta" ∧
      ¬ strContains (refineCmd aChain) "results/filtered.fasta" ∧
      ¬ strContains (traitsCmd aChain) "results/filtered.fasta" ∧
      ¬ strContains (ancestralCmd aChain) "results/filtered.fasta" ∧
      ¬ strContains (exportCmd aChain) "results/filtered.fasta" ∧
      strContains (treeCmd aChain) "--alignment results/aligned.fasta" ∧
      strContains (refineCmd aChain) "--alignment results/aligned.fasta" ∧
      strContains (refineCmd aChain) "--tree results/tree_raw.nwk" ∧
      strContains (refineCmd aChain) "--metadata results/meta.tsv" ∧
      strContains (traitsCmd aChain) "--tree results/tree.nwk" ∧
      strContains (traitsCmd aChain) "--metadata results/meta.tsv" ∧
      strContains (ancestralCmd aChain) "--tree results/tree.nwk" ∧
      strContains (ancestralCmd aChain) "--alignment results/aligned.fasta" ∧
      strContains (exportCmd aChain) "results/branch_lengths.json" ∧
      strContains (exportCmd aChain) "results/traits.json" ∧
      strContains (exportCmd aChain) "results/nt_muts.json" ∧
      strContains (exportCmd aChain) "--tree results/tree.nwk" ∧
      strContains (exportCmd aChain) "--output auspice/westnile.json" ∧
      strContains viewCmd "auspice/" := by
  decide

/-- C10: when the optional maintainers and build-URL flags are not
supplied, Python interpolates `None` into the f-string, so the stage-8
export command contains the literal quoted text `"None"` for each flag
rather than omitting the flag or substituting an empty value. -/
theorem export_interpolates_none_for_unset_flags (a : Args)
    (hm : a.maintainers = none) (hb : a.build_url = none) :
    strContains (exportCmd a) "--maintainers \"None\"" ∧
      strContains (exportCmd a) "--build-url \"None\"" := by
  constructor
  · show ("--maintainers \"None\"").data <:+: (exportCmd a).data
    simp only [exportCmd, hm, hb, pyStr, String.data_append, List.append_assoc]
    apply infix_extend_left
    apply infix_extend_left
    apply infix_extend_left
    apply infix_extend_left
    exact infix_middle _ _ _ _ (by decide)
  · show ("--build-url \"None\"").data <:+: (exportCmd a).data
    simp only [exportCmd, hm, hb, pyStr, String.data_append, List.append_assoc]
    apply infix_extend_left
    apply infix_extend_left
    apply infix_extend_left
    apply infix_extend_left
    apply infix_extend_left
    apply infix_extend_left
    exact infix_middle _ _ _ _ (by decide)

/-- Witness for C10: the sample configuration leaves both flags unset, and
its export command indeed carries the two literal `"None"` texts. -/
theorem export_interpolates_none_for_unset_flags_witness :
    strContains (exportCmd a0) "--maintainers \"None\"" ∧
      strContains (exportCmd a0) "--build-url \"None\"" :=
  export_interpolates_none_for_unset_flags a0 rfl rfl

/-! ## extract_sequences.py -/

/-- One sequence record as handled by `Bio.SeqIO`: identifier, description
line, opaque payload. -/
structure SeqRecord where
  id : String
  descr : String
  seq : String
deriving DecidableEq

/-- Split a character list at newline characters (the pieces do not keep
the newline). -/
def splitLines : List Char → List (List Char)
  | [] => [[]]
  | c :: cs =>
    if c = '\n' then [] :: splitLines cs
    else
      match splitLines cs with
      | [] => [[c]]
      | l :: ls => (c :: l) :: ls

/-- Whitespace as stripped by Python `str.strip`. -/
def isSpaceChar (c : Char) : Bool :=
  c == ' ' || c == '\n' || c == '\t' || c == '\r'

/-- Python `str.strip`: drop leading and trailing whitespace. -/
def pyStrip (s : String) : String :=
  String.mk (((s.data.dropWhile isSpaceChar).reverse.dropWhile isSpaceChar).reverse)

/-- Python `readlines` on a file's text, modulo the trailing newline kept
on each line (the caller strips it): the text split at newlines, with the
phantom empty piece after a final newline dropped. -/
def readlines (raw : String) : List String :=
  let parts := (splitLines raw.data).map String.mk
  if parts.getLast? = some "" then parts.dropLast else parts

/-- The identifier set built on line 35 of `extract_sequences.py`:
`set(line.strip() for line in id_handle.readlines())`.  A Python set is
order-irrelevant and duplicate-free; for membership it is the deduplicated
list of stripped lines. -/
def idSet (idRaw : String) : List String :=
  ((readlines idRaw).map pyStrip).dedup

/-- Errors `main` can report before writing any output. -/
inductive ExtractError where
  | inputNotFound
  | inputEmpty
  | idListNotFound
deriving DecidableEq

/-- Observable outcome of `extract_sequences.py`'s `main`: the records
written to the output file (`none` when the output file was never
created), and the error reported, if any. -/
structure ExtractResult where
  output : Option (List SeqRecord)
  error : Option ExtractError
deriving DecidableEq

/-- The body of `extract_sequences.py`'s `main` (lines 20–45).  The input
archive and identifier file are each `Option String` — `none` models a
missing file, `some raw` an existing file with text `raw` (`os.path.getsize`
zero means empty text).  `parse` stands for `SeqIO.parse`; the checks run
in source order: input existence, input non-emptiness, identifier-file
existence; only then is the output file opened and the membership filter
streamed into it. -/
def extractMain (parse : String → List SeqRecord)
    (inputC idC : Option String) : ExtractResult :=
  match inputC with
  | none => ⟨none, some ExtractError.inputNotFound⟩
  | some raw =>
    if raw.length = 0 then ⟨none, some ExtractError.inputEmpty⟩
    else
      match idC with
      | none => ⟨none, some ExtractError.idListNotFound⟩
      | some idRaw =>
        ⟨some ((parse raw).filter (fun r => decide (r.id ∈ idSet idRaw))), none⟩

/-- C4: on inputs satisfying the preconditions, the extractor writes
exactly the records whose identifier is in the identifier set, in input
order (the output is a sublist of the input — a filter, not a reorder);
records are not duplicated by duplicate identifier entries (any identifier
file with the same membership yields the same output, and a
duplicate-free input yields a duplicate-free output); when nothing
matches, the output is the empty file and no error is raised. -/
theorem extract_writes_exact_matches (parse : String → List SeqRecord)
    (raw idRaw : String) (hne : raw.length ≠ 0) :
    ∃ out, extractMain parse (some raw) (some idRaw) = ⟨some out, none⟩ ∧
      out = (parse raw).filter (fun r => decide (r.id ∈ idSet idRaw)) ∧
      List.Sublist out (parse raw) ∧
      (∀ r, r ∈ out ↔ r ∈ parse raw ∧ r.id ∈ idSet idRaw) ∧
      ((parse raw).Nodup → out.Nodup) ∧
      (∀ idRaw2 : String, (∀ s, s ∈ idSet idRaw2 ↔ s ∈ idSet idRaw) →
        extractMain parse (some raw) (some idRaw2) = ⟨some out, none⟩) ∧
      ((∀ r ∈ parse raw, r.id ∉ idSet idRaw) → out = []) := by
  refine ⟨(parse raw).filter (fun r => decide (r.id ∈ idSet idRaw)),
    ?_, rfl, ?_, ?_, ?_, ?_, ?_⟩
  · simp [extractMain, hne]
  · exact List.filter_sublist (parse raw)
  · intro r
    simp [List.mem_filter]
  · intro hnd
    exact hnd.sublist (List.filter_sublist (parse raw))
  · intro idRaw2 hmem
    have hfil : (parse raw).filter (fun r => decide (r.id ∈ idSet idRaw2))
        = (parse raw).filter (fun r => decide (r.id ∈ idSet idRaw)) := by
      apply List.filter_congr
      intro r _
      simp [hmem r.id]
    simp [extractMain, hne, hfil]
  · intro hnone
    rw [List.filter_eq_nil_iff]
    intro r hr
    simpa using hnone r hr

/-- A stub parser standing for `SeqIO.parse` on a three-record archive. -/
def parse0 : String → List SeqRecord :=
  fun _ => [⟨"A", "recA", "ACGT"⟩, ⟨"B", "recB", "GGCC"⟩, ⟨"C", "recC", "TTAA"⟩]

/-- Witness for C4: an archive with records A, B, C and an identifier file
listing B, D, B (a duplicate and an absent identifier) yields exactly
record B, once, with no error. -/
theorem extract_writes_exact_matches_witness :
    extractMain parse0 (some ">seqs") (some "B\nD\nB\n")
      = ⟨some [⟨"B", "recB", "GGCC"⟩], none⟩ := by
  obtain ⟨out, h1, h2, -⟩ :=
    extract_writes_exact_matches parse0 ">seqs" "B\nD\nB\n" (by decide)
  have h3 : out = [⟨"B", "recB", "GGCC"⟩] := by rw [h2]; decide
  rw [h1, h3]

/-- C5: the extractor fails with `InputNotFound` when the input archive is
missing, with `InputEmpty` when it exists but is zero bytes, and with
`IdListNotFound` when the archive is present and non-empty but the
identifier file is missing; in each case the error is reported and the
output file is never created (`output = none`). -/
theorem extract_precondition_failures (parse : String → List SeqRecord)
    (inputC idC : Option String) :
    (inputC = none →
      extractMain parse inputC idC = ⟨none, some ExtractError.inputNotFound⟩) ∧
    (∀ raw, inputC = some raw → raw.length = 0 →
      extractMain parse inputC idC = ⟨none, some ExtractError.inputEmpty⟩) ∧
    (∀ raw, inputC = some raw → raw.length ≠ 0 → idC = none →
      extractMain parse inputC idC = ⟨none, some ExtractError.idListNotFound⟩) := by
  refine ⟨?_, ?_, ?_⟩
  · intro h
    subst h
    rfl
  · intro raw h hz
    subst h
    simp [extractMain, hz]
  · intro raw h hnz hid
    subst h
    subst hid
    simp [extractMain, hnz]

/-- Witness for C5: the three precondition failures on concrete files, each
with no output written. -/
theorem extract_precondition_failures_witness :
    extractMain parse0 none (some "B") = ⟨none, some ExtractError.inputNotFound⟩ ∧
      extractMain parse0 (some "") (some "B") = ⟨none, some ExtractError.inputEmpty⟩ ∧
      extractMain parse0 (some ">seqs") none = ⟨none, some ExtractError.idListNotFound⟩ :=
  ⟨(extract_precondition_failures parse0 none (some "B")).1 rfl,
   (extract_precondition_failures parse0 (some "") (some "B")).2.1 "" rfl (by decide),
   (extract_precondition_failures parse0 (some ">seqs") none).2.2 ">seqs" rfl (by decide) rfl⟩

/-! ## get_GenBank_genomes.py -/

/-- The file name written for one accession (line 13):
`output_folder/accession.fasta`. -/
def fastaName (folder acc : String) : String :=
  folder ++ "/" ++ acc ++ ".fasta"

/-- Observable outcome of the fetch loop: the files written (in order) and
the console lines printed. -/
structure FetchOutcome where
  written : List String
  logs : List String
deriving DecidableEq

/-- The per-accession loop of `download_sequences` (lines 9–18).  `fetch`
stands for `Entrez.efetch` + `SeqIO.read`; `none` models any exception
(network error, unknown accession, malformed response).  A success writes
`folder/acc.fasta` and prints the download line; a failure prints the
error line and the loop continues with the next accession. -/
def download_sequences (fetch : String → Option SeqRecord) (folder : String) :
    List String → FetchOutcome
  | [] => ⟨[], []⟩
  | acc :: rest =>
    let tail := download_sequences fetch folder rest
    match fetch acc with
    | some _ =>
      ⟨fastaName folder acc :: tail.written,
        ("Downloaded " ++ acc ++ " and saved to " ++ fastaName folder acc) :: tail.logs⟩
    | none =>
      ⟨tail.written, ("Error downloading " ++ acc) :: tail.logs⟩

/-- Extending both strings with the same suffix and prefix preserves
equality of the middles. -/
theorem fastaName_inj (folder : String) {x y : String}
    (h : fastaName folder x = fastaName folder y) : x = y := by
  have hd : ((folder ++ "/") ++ x).data ++ (".fasta").data
      = ((folder ++ "/") ++ y).data ++ (".fasta").data := by
    have := congrArg String.data h
    simpa [fastaName, String.data_append, List.append_assoc] using this
  have hx : (folder ++ "/").data ++ x.data = (folder ++ "/").data ++ y.data := by
    have h2 := List.append_cancel_right hd
    simpa [String.data_append] using h2
  have h3 : x.data = y.data := List.append_cancel_left hx
  cases x
  cases y
  exact congrArg String.mk h3

/-- C6: a failure fetching one accession is logged and does not abort the
loop: the files written are exactly `folder/acc.fasta` for the accessions
whose fetch succeeded, in list order; the loop completes with one console
line per accession; every successfully fetched accession's file is
written, and the file of an accession whose fetch fails is never
written. -/
theorem download_isolates_failures (fetch : String → Option SeqRecord)
    (folder : String) (accs : List String) :
    (download_sequences fetch folder accs).written
        = (accs.filter (fun a => (fetch a).isSome)).map (fastaName folder) ∧
      (download_sequences fetch folder accs).logs.length = accs.length ∧
      (∀ a ∈ accs, (fetch a).isSome →
        fastaName folder a ∈ (download_sequences fetch folder accs).written) ∧
      (∀ a, fetch a = none →
        fastaName folder a ∉ (download_sequences fetch folder accs).written) := by
  have hw : ∀ l : List String, (download_sequences fetch folder l).written
      = (l.filter (fun a => (fetch a).isSome)).map (fastaName folder) := by
    intro l
    induction l with
    | nil => rfl
    | cons acc rest ih =>
      cases hf : fetch acc with
      | some r => simp [download_sequences, hf, List.filter_cons, ih]
      | none => simp [download_sequences, hf, List.filter_cons, ih]
  have hl : ∀ l : List String,
      (download_sequences fetch folder l).logs.length = l.length := by
    intro l
    induction l with
    | nil => rfl
    | cons acc rest ih =>
      cases hf : fetch acc with
      | some r => simp [download_sequences, hf, ih]
      | none => simp [download_sequences, hf, ih]
  refine ⟨hw accs, hl accs, ?_, ?_⟩
  · intro a ha hsome
    rw [hw accs]
    exact List.mem_map_of_mem (fastaName folder) (List.mem_filter.2 ⟨ha, by simpa⟩)
  · intro a hnone hmem
    rw [hw accs] at hmem
    obtain ⟨b, hb, hba⟩ := List.mem_map.1 hmem
    have hba2 : b = a := fastaName_inj folder hba
    subst hba2
    have := (List.mem_filter.1 hb).2
    rw [hnone] at this
    simp at this

/-- A stub fetcher: every accession except X2 resolves to a record, the
fetch of X2 raises. -/
def fetchX2fails : String → Option SeqRecord :=
  fun acc => if acc = "X2" then none else some ⟨acc, acc, "ACGT"⟩

/-- Witness for C6: for accessions X1, X2, X3 with only the fetch of X2
failing, the output directory receives `X1.fasta` and `X3.fasta` but not
`X2.fasta`, and the loop completes with three console lines. -/
theorem download_isolates_failures_witness :
    fastaName "out" "X1" ∈ (download_sequences fetchX2fails "out" ["X1", "X2", "X3"]).written ∧
      fastaName "out" "X3" ∈ (download_sequences fetchX2fails "out" ["X1", "X2", "X3"]).written ∧
      fastaName "out" "X2" ∉ (download_sequences fetchX2fails "out" ["X1", "X2", "X3"]).written ∧
      (download_sequences fetchX2fails "out" ["X1", "X2", "X3"]).logs.length = 3 := by
  have h := download_isolates_failures fetchX2fails "out" ["X1", "X2", "X3"]
  exact ⟨h.2.2.1 "X1" (by decide) (by decide),
    h.2.2.1 "X3" (by decide) (by decide),
    h.2.2.2 "X2" (by decide),
    h.2.1⟩

/-- The `main` of `get_GenBank_genomes.py` (lines 20–43): a missing
accession file is reported and nothing runs; otherwise the stripped lines
of the file are fetched one by one and, because `download_sequences`
swallows every per-accession failure, the success line
`All sequences downloaded successfully.` is printed unconditionally
afterwards (the enclosing `try` can only catch exceptions
`download_sequences` never lets escape). -/
def genbankMain (fetch : String → Option SeqRecord) (folder : String)
    (accFileC : Option String) : FetchOutcome :=
  match accFileC with
  | none => ⟨[], ["Error: Accession file not found."]⟩
  | some raw =>
    let accs := (readlines raw).map pyStrip
    let r := download_sequences fetch folder accs
    ⟨r.written, r.logs ++ ["All sequences downloaded successfully."]⟩

/-- A fetcher for which every fetch raises. -/
def fetchAllFail : String → Option SeqRecord := fun _ => none

/-- C9 evaluated on the code: with an accession file listing X1 whose
fetch fails, no file is written and the error line is printed — yet the
run still reports `All sequences downloaded successfully.`, so the
success message is not reserved for runs where no per-accession fetch
failed. -/
theorem success_message_despite_failures :
    fetchAllFail "X1" = none ∧
      (genbankMain fetchAllFail "out" (some "X1")).written = [] ∧
      "Error downloading X1" ∈ (genbankMain fetchAllFail "out" (some "X1")).logs ∧
      "All sequences downloaded successfully." ∈ (genbankMain fetchAllFail "out" (some "X1")).logs := by
  decide
